import Mathlib

/-!
Shallow embedding of `authenticityfinder.py`: a route sampler that fetches a
driving route, samples waypoints along it at a fixed mile interval, queries a
places API around each waypoint, and prints the names of the points of
interest found.  Distances are modelled as exact rationals; the meters-to-miles
conversion constant 1609.34 is the rational 160934/100.
-/

/-- A latitude/longitude pair, as consumed from `end_location.{lat,lng}`. -/
structure Location where
  lat : ℚ
  lng : ℚ
deriving DecidableEq, Repr

/-- One route step: `distance.value` in meters and its `end_location`. -/
structure RouteStep where
  distance_value : ℚ
  end_location : Location
deriving DecidableEq, Repr

/-- One leg of the first route: an ordered list of steps. -/
structure Leg where
  steps : List RouteStep
deriving DecidableEq, Repr

/-- The part of the directions response the program consumes:
`routes[0].legs`. -/
structure RouteData where
  legs : List Leg
deriving DecidableEq, Repr

/-- The conversion constant 1609.34 meters per mile used at line 125. -/
def metersPerMile : ℚ := 160934 / 100

/-- `step['distance']['value'] / 1609.34`: a step's length in miles. -/
def stepMiles (s : RouteStep) : ℚ := s.distance_value / metersPerMile

/-- All steps of all legs, in traversal order: the nested
`for leg in route['routes'][0]['legs']: for step in leg['steps']` loop
visits exactly this list. -/
def RouteData.allSteps (r : RouteData) : List RouteStep :=
  (r.legs.map Leg.steps).join

/-- The route's total length in miles. -/
def totalMiles (r : RouteData) : ℚ :=
  (r.allSteps.map stepMiles).sum

/-- The body of the step loop in `Route.calculate_waypoints` (lines 124-130):
state is the waypoint list built so far and `accumulated_distance`; the step's
miles are added, and if the accumulator reaches `interval_miles` the step's
end location is appended once and `interval_miles` subtracted once (the source
uses a single `if`, not a `while`). -/
def waypointStep (interval_miles : ℚ) (st : List Location × ℚ) (s : RouteStep) :
    List Location × ℚ :=
  let acc := st.2 + stepMiles s
  if interval_miles ≤ acc then
    (st.1 ++ [s.end_location], acc - interval_miles)
  else
    (st.1, acc)

namespace Route

/-- `Route.calculate_waypoints` (lines 108-130): reset the waypoint list,
reset the accumulator to 0, and run the step loop over every step of every
leg; the resulting `self.waypoints` list is returned. -/
def calculate_waypoints (route : RouteData) (interval_miles : ℚ) : List Location :=
  (route.allSteps.foldl (waypointStep interval_miles) ([], 0)).1

/-- The same method seen with its receiver state: `prior` is the value of
`self.waypoints` before the call; line 120 (`self.waypoints = []`) discards
it before the loop runs. -/
def calculate_waypoints_method (prior : List Location) (route : RouteData)
    (interval_miles : ℚ) : List Location :=
  let reset : List Location := []
  (route.allSteps.foldl (waypointStep interval_miles) (reset, 0)).1

end Route

/-- Ghost-instrumented variant of the step loop that also tracks the running
cumulative distance `cum` (in miles) and records, for each emitted waypoint,
the cumulative distance at the end of the step that emitted it.  State is
(positions, cum, accumulator); the guard and accumulator evolution are
identical to `waypointStep`. -/
def positionStep (interval_miles : ℚ) (st : List ℚ × ℚ × ℚ) (s : RouteStep) :
    List ℚ × ℚ × ℚ :=
  let cum := st.2.1 + stepMiles s
  let acc := st.2.2 + stepMiles s
  if interval_miles ≤ acc then
    (st.1 ++ [cum], cum, acc - interval_miles)
  else
    (st.1, cum, acc)

/-- The cumulative step-distance (miles from the route start) at which each
waypoint of `Route.calculate_waypoints` is emitted, in emission order. -/
def waypointPositions (route : RouteData) (interval_miles : ℚ) : List ℚ :=
  (route.allSteps.foldl (positionStep interval_miles) ([], 0, 0)).1

/-- The routing provider's answer as seen by `Route.fetch_route`: an HTTP
status code, and the parsed directions body in case of success. -/
structure FetchResponse where
  status : Nat
  body : RouteData

/-- `Route.fetch_route` (lines 101-106): on status 200 return the parsed
route data; otherwise print an error line and return `None`.  The second
component is the list of lines printed by the call. -/
def Route.fetch_route (resp : FetchResponse) : Option RouteData × List String :=
  if resp.status = 200 then (some resp.body, [])
  else (none, ["Error fetching route: " ++ toString resp.status])

/-- A point of interest: `name` is `none` when the result object lacks the
key; every other provider field is irrelevant to the program. -/
structure POI where
  name : Option String
deriving DecidableEq, Repr

/-- The places provider's answer for one nearby-search call. -/
structure SearchResponse where
  status : Nat
  results : List POI

namespace POIloc

/-- `POIloc.search_nearby` (lines 158-181): issue one nearby-search request
for `location`; on status 200 return the `results` list, otherwise print an
error line and return `[]`.  `world` maps each queried location to the
provider's response; the second component is the printed lines. -/
def search_nearby (world : Location → SearchResponse) (location : Location) :
    List POI × List String :=
  let resp := world location
  if resp.status = 200 then (resp.results, [])
  else ([], ["Error fetching POIs: " ++ toString resp.status])

/-- `POIloc.search_waypoints` (lines 183-194): start from an empty
`poi_results` list and extend it with each waypoint's `search_nearby`
results, in waypoint order. -/
def search_waypoints (world : Location → SearchResponse) (waypoints : List Location) :
    List POI :=
  waypoints.foldl (fun poi_results w => poi_results ++ (search_nearby world w).1) []

end POIloc

/-- The output loop of `main` (lines 238-239): one printed line per POI,
`poi.get('name', 'No name available')`. -/
def printNames (poi_results : List POI) : List String :=
  poi_results.foldl (fun lines poi => lines ++ [poi.name.getD "No name available"]) []

/-- Observable outcome of one `main` run: whether waypoint sampling ran,
which locations were sent to the places API, and the printed lines. -/
structure RunResult where
  sampled : Bool
  searchCalls : List Location
  output : List String
deriving Repr

/-- `main` (lines 198-239) after input collection: fetch the route; if that
failed, print the failure message and return without sampling or searching;
otherwise sample waypoints at the hardcoded 25-mile interval, search every
waypoint, and print one name line per POI. -/
def mainRun (resp : FetchResponse) (world : Location → SearchResponse) : RunResult :=
  let fetched := Route.fetch_route resp
  match fetched.1 with
  | none =>
      { sampled := false, searchCalls := [],
        output := fetched.2 ++ ["Failed to fetch route data."] }
  | some route_data =>
      let waypoints := Route.calculate_waypoints route_data 25
      { sampled := true, searchCalls := waypoints,
        output := fetched.2 ++ printNames (POIloc.search_waypoints world waypoints) }

/-! Concrete routes used by the evaluation theorems.  Meter values are chosen
so the mile conversions are exact: 1609.34 m = 1 mile. -/

/-- One step of 120700.5 m = 3·25·1609.34 m = 75 miles. -/
def routeLongStep : RouteData := ⟨[⟨[⟨241401 / 2, ⟨1, 1⟩⟩]⟩]⟩

/-- Two steps of 1609.34 m = 1 mile each, with distinct end locations. -/
def routeTwoSteps : RouteData := ⟨[⟨[⟨80467 / 50, ⟨1, 1⟩⟩, ⟨80467 / 50, ⟨2, 2⟩⟩]⟩]⟩

/-- A 2.5-mile step (4023.35 m) followed by a 0.2-mile step (321.868 m). -/
def routeUnevenSteps : RouteData := ⟨[⟨[⟨80467 / 20, ⟨1, 1⟩⟩, ⟨80467 / 250, ⟨2, 2⟩⟩]⟩]⟩

/-- One step of exactly 40233.5 m, the spec's 25-mile boundary scenario. -/
def routeBoundaryStep : RouteData := ⟨[⟨[⟨80467 / 2, ⟨1, 1⟩⟩]⟩]⟩

/-- One step of 1609.34 m = 1 mile. -/
def routeOneMile : RouteData := ⟨[⟨[⟨80467 / 50, ⟨1, 1⟩⟩]⟩]⟩

/-! Supporting lemmas about the fold that implements the sampling loop. -/

lemma metersPerMile_pos : 0 < metersPerMile := by norm_num [metersPerMile]

lemma stepMiles_nonneg (s : RouteStep) (h : 0 ≤ s.distance_value) : 0 ≤ stepMiles s :=
  div_nonneg h (le_of_lt metersPerMile_pos)

lemma waypointStep_fst_length (I : ℚ) (st : List Location × ℚ) (s : RouteStep) :
    (waypointStep I st s).1.length ≤ st.1.length + 1 := by
  simp only [waypointStep]
  split <;> simp

/-- Each visited step appends at most one waypoint. -/
lemma foldl_waypointStep_length (I : ℚ) (ss : List RouteStep) :
    ∀ st : List Location × ℚ,
      (ss.foldl (waypointStep I) st).1.length ≤ st.1.length + ss.length := by
  induction ss with
  | nil => intro st; simp
  | cons s ss ih =>
    intro st
    have h1 := waypointStep_fst_length I st s
    have h2 := ih (waypointStep I st s)
    simp only [List.foldl_cons, List.length_cons]
    omega

/-- If the accumulator plus all remaining distance stays below the interval,
the loop emits nothing and only accumulates. -/
lemma foldl_waypointStep_no_emit (I : ℚ) (ss : List RouteStep) :
    ∀ st : List Location × ℚ, (∀ s ∈ ss, 0 ≤ stepMiles s) →
      st.2 + (ss.map stepMiles).sum < I →
      ss.foldl (waypointStep I) st = (st.1, st.2 + (ss.map stepMiles).sum) := by
  induction ss with
  | nil => intro st _ _; simp
  | cons s ss ih =>
    intro st hnn hlt
    have hrest : 0 ≤ (ss.map stepMiles).sum := by
      apply List.sum_nonneg
      intro x hx
      obtain ⟨a, ha, rfl⟩ := List.mem_map.mp hx
      exact hnn a (List.mem_cons_of_mem _ ha)
    have hsum : ((s :: ss).map stepMiles).sum = stepMiles s + (ss.map stepMiles).sum := by
      simp
    have hlt2 : st.2 + stepMiles s + (ss.map stepMiles).sum < I := by
      rw [hsum] at hlt; linarith
    have hguard : ¬ I ≤ st.2 + stepMiles s := by
      intro hI; linarith
    have hstep : waypointStep I st s = (st.1, st.2 + stepMiles s) := by
      simp only [waypointStep]
      rw [if_neg hguard]
    rw [List.foldl_cons, hstep,
      ih (st.1, st.2 + stepMiles s) (fun x hx => hnn x (List.mem_cons_of_mem _ hx))
        (by simpa using hlt2)]
    rw [hsum]
    simp only [Prod.mk.injEq, true_and]
    ring

/-- The sampling loop's spacing invariant: the accumulator stays nonnegative,
the running cumulative distance equals (number emitted so far)·interval plus
the accumulator, and the k-th recorded emission position (0-indexed) is at
least (k+1)·interval. -/
lemma foldl_positionStep_invariant (I : ℚ) (ss : List RouteStep) :
    ∀ st : List ℚ × ℚ × ℚ, (∀ s ∈ ss, 0 ≤ stepMiles s) →
      0 ≤ st.2.2 →
      st.2.1 = st.1.length * I + st.2.2 →
      (∀ k (h : k < st.1.length), ((k : ℚ) + 1) * I ≤ st.1[k]) →
      0 ≤ (ss.foldl (positionStep I) st).2.2 ∧
        (ss.foldl (positionStep I) st).2.1 =
          (ss.foldl (positionStep I) st).1.length * I +
            (ss.foldl (positionStep I) st).2.2 ∧
        ∀ k (h : k < (ss.foldl (positionStep I) st).1.length),
          ((k : ℚ) + 1) * I ≤ (ss.foldl (positionStep I) st).1[k] := by
  induction ss with
  | nil => intro st _ h0 h1 h2; exact ⟨h0, h1, h2⟩
  | cons s ss ih =>
    intro st hnn h0 h1 h2
    have hd : 0 ≤ stepMiles s := hnn s (List.mem_cons_self _ _)
    rw [List.foldl_cons]
    by_cases hg : I ≤ st.2.2 + stepMiles s
    · have hps : positionStep I st s =
          (st.1 ++ [st.2.1 + stepMiles s], st.2.1 + stepMiles s,
            st.2.2 + stepMiles s - I) := by
        simp only [positionStep]
        rw [if_pos hg]
      rw [hps]
      refine ih _ (fun x hx => hnn x (List.mem_cons_of_mem _ hx)) ?_ ?_ ?_
      · dsimp only
        linarith
      · dsimp only
        simp only [List.length_append, List.length_cons, List.length_nil]
        push_cast
        rw [h1]
        ring
      · intro k hk
        dsimp only at hk ⊢
        simp only [List.length_append, List.length_cons, List.length_nil] at hk
        rcases Nat.lt_or_ge k st.1.length with hlt | hge
        · rw [List.getElem_append_left hlt]
          exact h2 k hlt
        · have hke : k = st.1.length := by omega
          subst hke
          rw [List.getElem_concat_length _ _ _ rfl]
          rw [add_mul, one_mul]
          have hc : (st.1.length : ℚ) * I + I ≤ st.1.length * I + (st.2.2 + stepMiles s) := by
            linarith
          calc (st.1.length : ℚ) * I + I
              ≤ st.1.length * I + (st.2.2 + stepMiles s) := hc
            _ = st.2.1 + stepMiles s := by rw [h1]; ring
    · have hps : positionStep I st s =
          (st.1, st.2.1 + stepMiles s, st.2.2 + stepMiles s) := by
        simp only [positionStep]
        rw [if_neg hg]
      rw [hps]
      refine ih _ (fun x hx => hnn x (List.mem_cons_of_mem _ hx)) ?_ ?_ ?_
      · dsimp only
        linarith
      · dsimp only
        rw [h1]
        ring
      · intro k hk
        exact h2 k hk

/-- The instrumented fold records exactly one position per emitted waypoint:
its recorded list has the same length as the waypoint list, provided the two
folds start with equal accumulators and equally long lists. -/
lemma foldl_position_waypoint_length (I : ℚ) (ss : List RouteStep) :
    ∀ (pst : List ℚ × ℚ × ℚ) (wst : List Location × ℚ),
      pst.1.length = wst.1.length → pst.2.2 = wst.2 →
      (ss.foldl (positionStep I) pst).1.length =
        (ss.foldl (waypointStep I) wst).1.length := by
  induction ss with
  | nil => intro pst wst h1 _; simpa using h1
  | cons s ss ih =>
    intro pst wst h1 h2
    rw [List.foldl_cons, List.foldl_cons]
    by_cases hg : I ≤ wst.2 + stepMiles s
    · have hg2 : I ≤ pst.2.2 + stepMiles s := by rw [h2]; exact hg
      have e1 : positionStep I pst s =
          (pst.1 ++ [pst.2.1 + stepMiles s], pst.2.1 + stepMiles s,
            pst.2.2 + stepMiles s - I) := by
        simp only [positionStep]
        rw [if_pos hg2]
      have e2 : waypointStep I wst s =
          (wst.1 ++ [s.end_location], wst.2 + stepMiles s - I) := by
        simp only [waypointStep]
        rw [if_pos hg]
      rw [e1, e2]
      refine ih _ _ ?_ ?_
      · simp [h1]
      · dsimp only
        rw [h2]
    · have hg2 : ¬ I ≤ pst.2.2 + stepMiles s := by rw [h2]; exact hg
      have e1 : positionStep I pst s =
          (pst.1, pst.2.1 + stepMiles s, pst.2.2 + stepMiles s) := by
        simp only [positionStep]
        rw [if_neg hg2]
      have e2 : waypointStep I wst s = (wst.1, wst.2 + stepMiles s) := by
        simp only [waypointStep]
        rw [if_neg hg]
      rw [e1, e2]
      refine ih _ _ h1 ?_
      dsimp only
      rw [h2]

/-- There is one recorded cumulative emission position per waypoint. -/
lemma waypointPositions_length (r : RouteData) (I : ℚ) :
    (waypointPositions r I).length = (Route.calculate_waypoints r I).length :=
  foldl_position_waypoint_length I r.allSteps ([], 0, 0) ([], 0) rfl rfl

/-- Folding the search loop from any already-accumulated result list just
prepends that list. -/
lemma search_waypoints_foldl (world : Location → SearchResponse) (ws : List Location) :
    ∀ init : List POI,
      ws.foldl (fun poi_results w => poi_results ++ (POIloc.search_nearby world w).1) init
        = init ++ POIloc.search_waypoints world ws := by
  induction ws with
  | nil => intro init; simp [POIloc.search_waypoints]
  | cons w ws ih =>
    intro init
    simp only [POIloc.search_waypoints, List.foldl_cons]
    rw [ih, ih]
    simp

/-- The per-waypoint searches concatenate: splitting the waypoint list splits
the flat result list at the same point. -/
lemma search_waypoints_append (world : Location → SearchResponse) (a b : List Location) :
    POIloc.search_waypoints world (a ++ b)
      = POIloc.search_waypoints world a ++ POIloc.search_waypoints world b := by
  have h := search_waypoints_foldl world b (POIloc.search_waypoints world a)
  simp only [POIloc.search_waypoints] at h ⊢
  rw [List.foldl_append]
  exact h

/-- A non-200 nearby-search response contributes an empty result list. -/
lemma search_nearby_fail (world : Location → SearchResponse) (w : Location)
    (h : (world w).status ≠ 200) : (POIloc.search_nearby world w).1 = [] := by
  simp only [POIloc.search_nearby]
  rw [if_neg h]

/-- The print loop, started from any already-printed lines, appends one line
per POI. -/
lemma printNames_foldl (poi_results : List POI) :
    ∀ init : List String,
      poi_results.foldl (fun lines poi => lines ++ [poi.name.getD "No name available"]) init
        = init ++ poi_results.map (fun poi => poi.name.getD "No name available") := by
  induction poi_results with
  | nil => intro init; simp
  | cons p ps ih =>
    intro init
    simp only [List.foldl_cons, List.map_cons]
    rw [ih]
    simp

/-! Claim theorems. -/

/-- Claim C1: the claim says the waypoint count always equals
⌊total miles / interval_miles⌋.  The source's emission step is a single `if`,
so a step spanning several intervals emits only once: a lone 75-mile step
sampled at 25 miles yields 1 waypoint although ⌊75 / 25⌋ = 3. -/
theorem calculate_waypoints_undersamples_long_step :
    totalMiles routeLongStep = 75 ∧
      Int.floor (totalMiles routeLongStep / 25) = 3 ∧
      (Route.calculate_waypoints routeLongStep 25).length = 1 := by
  refine ⟨?_, ?_, ?_⟩
  · norm_num [totalMiles, routeLongStep, RouteData.allSteps, stepMiles, metersPerMile]
  · norm_num [totalMiles, routeLongStep, RouteData.allSteps, stepMiles, metersPerMile]
  · norm_num [Route.calculate_waypoints, routeLongStep, RouteData.allSteps, waypointStep,
      stepMiles, metersPerMile]

/-- Claim C2: the claim says a single step of 3·interval_miles·1609.34 meters
yields exactly 3 waypoints because the subtraction runs in a loop.  The
source subtracts at most once per step, so the same input yields exactly one
waypoint (at the step's end location) and the accumulator is left at 50. -/
theorem calculate_waypoints_single_long_step :
    Route.calculate_waypoints routeLongStep 25 = [⟨1, 1⟩] := by
  norm_num [Route.calculate_waypoints, routeLongStep, RouteData.allSteps, waypointStep,
    stepMiles, metersPerMile]

/-- Claim C3: the claim says `interval_miles ≤ 0` fails with an
`InvalidArgument` error.  The source has no such guard: with interval 0 the
call succeeds, terminates, and emits one waypoint per step (the guard
`accumulated_distance >= interval_miles` is always true for nonnegative
distances). -/
theorem calculate_waypoints_nonpositive_interval :
    Route.calculate_waypoints routeTwoSteps 0 = [⟨1, 1⟩, ⟨2, 2⟩] := by
  norm_num [Route.calculate_waypoints, routeTwoSteps, RouteData.allSteps, waypointStep,
    stepMiles, metersPerMile]

/-- Claim C4, counterexample: with interval 1 mile, a 2.5-mile step followed
by a 0.2-mile step emits waypoints at cumulative miles 2.5 and 2.7 — the
second waypoint is only 0.2 miles past the first, closer than the interval. -/
theorem consecutive_waypoint_gap_below_interval :
    (0 : ℚ) < 1 ∧
      Route.calculate_waypoints routeUnevenSteps 1 = [⟨1, 1⟩, ⟨2, 2⟩] ∧
      waypointPositions routeUnevenSteps 1 = [5 / 2, 27 / 10] ∧
      (27 / 10 : ℚ) - 5 / 2 < 1 := by
  refine ⟨by norm_num, ?_, ?_, by norm_num⟩
  · norm_num [Route.calculate_waypoints, routeUnevenSteps, RouteData.allSteps, waypointStep,
      stepMiles, metersPerMile]
  · norm_num [waypointPositions, routeUnevenSteps, RouteData.allSteps, positionStep,
      stepMiles, metersPerMile]

/-- Claim C4, amended: consecutive waypoints may be closer than the interval
in cumulative step-distance, but each waypoint is never early: for
nonnegative step distances, the k-th waypoint (0-indexed) is emitted at
cumulative step-distance at least (k+1)·interval_miles. -/
theorem waypoint_cumulative_position_lower_bound (r : RouteData) (I : ℚ)
    (hd : ∀ s ∈ r.allSteps, 0 ≤ s.distance_value) :
    ∀ k, k < (waypointPositions r I).length →
      ((k : ℚ) + 1) * I ≤ (waypointPositions r I).getD k 0 := by
  intro k hk
  have hnn : ∀ s ∈ r.allSteps, 0 ≤ stepMiles s := fun s hs => stepMiles_nonneg s (hd s hs)
  have hinv := foldl_positionStep_invariant I r.allSteps ([], 0, 0) hnn le_rfl
    (by simp) (by intro k h; simp at h)
  rw [List.getD_eq_getElem _ _ hk]
  exact hinv.2.2 k hk

/-- Claim C4, witness: on the two-step route of the counterexample the second
waypoint (k = 1) sits at cumulative mile 2.7 ≥ 2·1. -/
theorem waypoint_cumulative_position_lower_bound_witness :
    (∀ s ∈ routeUnevenSteps.allSteps, 0 ≤ s.distance_value) ∧
      1 < (waypointPositions routeUnevenSteps 1).length ∧
      (((1 : ℕ) : ℚ) + 1) * 1 ≤ (waypointPositions routeUnevenSteps 1).getD 1 0 :=
  ⟨by norm_num [routeUnevenSteps, RouteData.allSteps],
   by norm_num [waypointPositions, routeUnevenSteps, RouteData.allSteps, positionStep,
      stepMiles, metersPerMile],
   waypoint_cumulative_position_lower_bound routeUnevenSteps 1
     (by norm_num [routeUnevenSteps, RouteData.allSteps]) 1
     (by norm_num [waypointPositions, routeUnevenSteps, RouteData.allSteps, positionStep,
        stepMiles, metersPerMile])⟩

/-- Claim C5: one step of exactly 40233.5 meters with interval 25 miles: the
step converts to exactly 25 miles, the `>=` guard fires, and the single
waypoint (1, 1) is emitted. -/
theorem calculate_waypoints_exact_interval_step :
    Route.calculate_waypoints routeBoundaryStep 25 = [⟨1, 1⟩] := by
  norm_num [Route.calculate_waypoints, routeBoundaryStep, RouteData.allSteps, waypointStep,
    stepMiles, metersPerMile]

/-- Claim C6: when the routing fetch has any non-200 status, the run aborts:
sampling never runs, no places-search call is issued, and the user-visible
failure message is printed. -/
theorem fetch_failure_aborts_run (resp : FetchResponse)
    (world : Location → SearchResponse) (h : resp.status ≠ 200) :
    (mainRun resp world).sampled = false ∧
      (mainRun resp world).searchCalls = [] ∧
      "Failed to fetch route data." ∈ (mainRun resp world).output := by
  have hf : Route.fetch_route resp =
      (none, ["Error fetching route: " ++ toString resp.status]) := by
    simp only [Route.fetch_route]
    rw [if_neg h]
  simp [mainRun, hf]

/-- Claim C6, witness: a 404 routing response aborts the run. -/
theorem fetch_failure_aborts_run_witness :
    (404 : Nat) ≠ 200 ∧
      ((mainRun ⟨404, ⟨[]⟩⟩ fun _ => ⟨200, []⟩).sampled = false ∧
        (mainRun ⟨404, ⟨[]⟩⟩ fun _ => ⟨200, []⟩).searchCalls = [] ∧
        "Failed to fetch route data." ∈ (mainRun ⟨404, ⟨[]⟩⟩ fun _ => ⟨200, []⟩).output) :=
  ⟨by decide, fetch_failure_aborts_run ⟨404, ⟨[]⟩⟩ (fun _ => ⟨200, []⟩) (by decide)⟩

/-- Claim C7: a waypoint whose nearby-search fails contributes an empty
result list, and the flat output over the whole waypoint list is exactly the
concatenation of the other waypoints' results in original order (the
searches before and after the failed one still run). -/
theorem search_failure_degrades_gracefully (world : Location → SearchResponse)
    (pre post : List Location) (w : Location) (h : (world w).status ≠ 200) :
    (POIloc.search_nearby world w).1 = [] ∧
      POIloc.search_waypoints world (pre ++ w :: post)
        = POIloc.search_waypoints world pre ++ POIloc.search_waypoints world post := by
  have hz := search_nearby_fail world w h
  refine ⟨hz, ?_⟩
  have hsplit : pre ++ w :: post = pre ++ [w] ++ post := by simp
  rw [hsplit, search_waypoints_append, search_waypoints_append]
  have hw : POIloc.search_waypoints world [w] = [] := by
    simp [POIloc.search_waypoints, hz]
  rw [hw]
  simp

/-- Searches used by the C7 witness: the middle waypoint's search returns
status 500, the others succeed with one named POI each. -/
def demoWorld : Location → SearchResponse := fun loc =>
  if loc = ⟨2, 2⟩ then ⟨500, [⟨some "bad"⟩]⟩
  else if loc = ⟨1, 1⟩ then ⟨200, [⟨some "alpha"⟩]⟩
  else ⟨200, [⟨some "omega"⟩]⟩

/-- Claim C7, witness: of three waypoints the middle search returns 500; the
output is the two successful waypoints' results in order. -/
theorem search_failure_degrades_gracefully_witness :
    (demoWorld ⟨2, 2⟩).status ≠ 200 ∧
      ((POIloc.search_nearby demoWorld ⟨2, 2⟩).1 = [] ∧
        POIloc.search_waypoints demoWorld ([⟨1, 1⟩] ++ ⟨2, 2⟩ :: [⟨3, 3⟩])
          = POIloc.search_waypoints demoWorld [⟨1, 1⟩]
              ++ POIloc.search_waypoints demoWorld [⟨3, 3⟩]) :=
  ⟨by norm_num [demoWorld],
   search_failure_degrades_gracefully demoWorld [⟨1, 1⟩] [⟨3, 3⟩] ⟨2, 2⟩
     (by norm_num [demoWorld])⟩

/-- Claim C8: a route with no steps samples to the empty waypoint list, and
so does any route (with nonnegative step distances) whose total mileage is
strictly below the interval. -/
theorem calculate_waypoints_empty_cases :
    (∀ (r : RouteData) (I : ℚ), r.allSteps = [] →
        Route.calculate_waypoints r I = []) ∧
      (∀ (r : RouteData) (I : ℚ), (∀ s ∈ r.allSteps, 0 ≤ s.distance_value) →
        totalMiles r < I → Route.calculate_waypoints r I = []) := by
  constructor
  · intro r I h
    simp [Route.calculate_waypoints, h]
  · intro r I hd hlt
    have hnn : ∀ s ∈ r.allSteps, 0 ≤ stepMiles s := fun s hs => stepMiles_nonneg s (hd s hs)
    have h := foldl_waypointStep_no_emit I r.allSteps ([], 0) hnn
      (by simpa [totalMiles] using hlt)
    simp [Route.calculate_waypoints, h]

/-- Claim C8, witness: the empty route at interval 25, and a 1-mile route at
interval 25, both sample to no waypoints. -/
theorem calculate_waypoints_empty_cases_witness :
    ((⟨[]⟩ : RouteData).allSteps = [] ∧ Route.calculate_waypoints ⟨[]⟩ 25 = []) ∧
      ((∀ s ∈ routeOneMile.allSteps, 0 ≤ s.distance_value) ∧
        totalMiles routeOneMile < 25 ∧
        Route.calculate_waypoints routeOneMile 25 = []) :=
  ⟨⟨by norm_num [RouteData.allSteps],
    calculate_waypoints_empty_cases.1 ⟨[]⟩ 25 (by norm_num [RouteData.allSteps])⟩,
   ⟨by norm_num [routeOneMile, RouteData.allSteps],
    by norm_num [totalMiles, routeOneMile, RouteData.allSteps, stepMiles, metersPerMile],
    calculate_waypoints_empty_cases.2 routeOneMile 25
      (by norm_num [routeOneMile, RouteData.allSteps])
      (by norm_num [totalMiles, routeOneMile, RouteData.allSteps, stepMiles, metersPerMile])⟩⟩

/-- Claim C9: the output loop prints exactly one line per POI record, the
record's name when present and the literal placeholder otherwise. -/
theorem printNames_one_line_per_poi (poi_results : List POI) :
    printNames poi_results
        = poi_results.map (fun poi => poi.name.getD "No name available") ∧
      (printNames poi_results).length = poi_results.length := by
  have h1 : printNames poi_results
      = poi_results.map (fun poi => poi.name.getD "No name available") := by
    simpa [printNames] using printNames_foldl poi_results []
  exact ⟨h1, by rw [h1]; simp⟩

/-- Claim C10: the method resets `self.waypoints` before sampling, so its
result does not depend on the previously stored list, and since each step
appends at most one waypoint the result is never longer than the number of
steps across all legs. -/
theorem calculate_waypoints_reset_and_bounded (priorA priorB : List Location)
    (r : RouteData) (I : ℚ) :
    Route.calculate_waypoints_method priorA r I
        = Route.calculate_waypoints_method priorB r I ∧
      (Route.calculate_waypoints r I).length ≤ r.allSteps.length := by
  refine ⟨rfl, ?_⟩
  have h := foldl_waypointStep_length I r.allSteps ([], 0)
  simpa [Route.calculate_waypoints] using h
